import Mathlib

/-!
Verification of the offset-to-LBA resolution engine of libutils
(src/offset2lba.cpp, src/offset2lba_windows.cpp).

Machine integers are modelled as Nat (for C unsigned types, with explicit
reduction mod 2^64 where 64-bit wraparound matters) and Int (for C signed
types, where overflow would be undefined behaviour and every claim stays in
range).  C signed division and remainder truncate toward zero, so they are
modelled with Int.tdiv and Int.tmod.
-/

/-- Two's-complement cast of a (signed) integer to an unsigned 64-bit value,
as in C `static_cast<unsigned long long>(x)`. -/
def toU64 (x : Int) : Nat := (x % (2 : Int) ^ 64).toNat

/- ===================== Windows backend (offset2lba_windows.cpp) ============ -/

/-- `VolumeInfo` struct (offset2lba_windows.cpp lines 34-39).
`ClusterSize` and `BytesPerSector` are DWORDs (unsigned), modelled as Nat;
`PartitionStartOffset` is a LARGE_INTEGER (signed 64-bit), modelled as Int. -/
structure VolumeInfo where
  ClusterSize : Nat
  BytesPerSector : Nat
  PartitionStartOffset : Int
deriving DecidableEq, Repr

/-- One entry of `RETRIEVAL_POINTERS_BUFFER::Extents`: a `{NextVcn, Lcn}` run. -/
structure RetrievalRun where
  NextVcn : Int
  Lcn : Int
deriving DecidableEq, Repr

/-- The `RETRIEVAL_POINTERS_BUFFER` returned by `FSCTL_GET_RETRIEVAL_POINTERS`:
an extent count, the VCN at which the returned runs begin, and the runs. -/
structure RetrievalPointersBuffer where
  ExtentCount : Nat
  StartingVcn : Int
  Extents : List RetrievalRun
deriving DecidableEq, Repr

/-- The two kinds of exception thrown by the Windows backend:
`std::system_error` (OS call failed) and `std::runtime_error`. -/
inductive WinErr where
  | systemError (msg : String)
  | runtimeError (msg : String)
deriving DecidableEq, Repr

/-- The scanning loop of `FindLcnFromVcn` (offset2lba_windows.cpp lines
146-159): walk the runs in order; on the first run with `vcn < NextVcn`
return `run.Lcn + (vcn - StartingVcn)` — note the code always subtracts the
buffer's `StartingVcn`, not the selected run's own starting VCN; if the loop
finishes, throw. -/
def scanRuns (startingVcn vcn : Int) : List RetrievalRun → Except WinErr Int
  | [] => Except.error (WinErr.runtimeError "Could not find the LCN for the given offset.")
  | run :: rest =>
    if vcn < run.NextVcn then
      Except.ok (run.Lcn + (vcn - startingVcn))
    else
      scanRuns startingVcn vcn rest

/-- `FindLcnFromVcn` (offset2lba_windows.cpp lines 127-160).  The
DeviceIoControl query result is abstracted as `Option RetrievalPointersBuffer`
(`none` = the ioctl failed).  The loop runs over the first `ExtentCount`
entries of the extent array. -/
def FindLcnFromVcn (queryResult : Option RetrievalPointersBuffer) (vcn : Int) :
    Except WinErr Int :=
  match queryResult with
  | none => Except.error (WinErr.systemError "FSCTL_GET_RETRIEVAL_POINTERS failed")
  | some rp =>
    if rp.ExtentCount = 0 then
      Except.error (WinErr.runtimeError "File has no allocated extents (sparse file?)")
    else
      scanRuns rp.StartingVcn vcn (rp.Extents.take rp.ExtentCount)

/-- The run-selection formula as the spec states it (spec section 4.4):
`lcn = run.lcn + (vcn − run.startingVcn)` where the selected run's starting
VCN is the buffer's `StartingVcn` for the first run and the previous run's
`NextVcn` for every later run.  `runStart` carries that value along the scan. -/
def spec_scanRuns (runStart vcn : Int) : List RetrievalRun → Except WinErr Int
  | [] => Except.error (WinErr.runtimeError "Could not find the LCN for the given offset.")
  | run :: rest =>
    if vcn < run.NextVcn then
      Except.ok (run.Lcn + (vcn - runStart))
    else
      spec_scanRuns run.NextVcn vcn rest

/-- The four quantities computed by `CalculateAndPrintLbaInfo`
(offset2lba_windows.cpp lines 175-191), all C `LONGLONG`. -/
structure WinLbaInfo where
  offsetInCluster : Int
  filePhysicalOffset : Int
  diskAbsoluteOffset : Int
  absoluteLba : Int
deriving DecidableEq, Repr

/-- `CalculateAndPrintLbaInfo` (offset2lba_windows.cpp lines 175-191):
`offsetInCluster = offset % ClusterSize`;
`filePhysicalOffset = lcn * ClusterSize + offsetInCluster`;
`diskAbsoluteOffset = PartitionStartOffset + filePhysicalOffset`;
`absoluteLba = diskAbsoluteOffset / BytesPerSector` (C signed division). -/
def CalculateAndPrintLbaInfo (offset : Int) (volInfo : VolumeInfo) (lcn : Int) :
    WinLbaInfo :=
  let offsetInCluster : Int := Int.tmod offset volInfo.ClusterSize
  let filePhysicalOffset : Int := lcn * volInfo.ClusterSize + offsetInCluster
  let diskAbsoluteOffset : Int := volInfo.PartitionStartOffset + filePhysicalOffset
  let absoluteLba : Int := Int.tdiv diskAbsoluteOffset volInfo.BytesPerSector
  ⟨offsetInCluster, filePhysicalOffset, diskAbsoluteOffset, absoluteLba⟩

/-- The OS environment seen by the Windows `get_lba`: whether `CreateFile`
succeeds, what `GetFileSizeEx` returns (`none` = it fails), what
`GetVolumeInfo` returns (`none` = any of its OS calls fails; its several
distinct failure messages are collapsed), and the retrieval-pointers query
result. -/
structure WinEnv where
  fileOpens : Bool
  fileSize : Option Int
  volumeInfo : Option VolumeInfo
  retrievalQuery : Option RetrievalPointersBuffer
deriving Repr

/-- `get_lba` on Windows (offset2lba_windows.cpp lines 46-88), as a function
of the OS environment.  The second component records which extent/volume OS
queries were issued, in order. -/
def win_get_lba (env : WinEnv) (offset : Int) :
    Except WinErr WinLbaInfo × List String :=
  if env.fileOpens = false then
    (Except.error (WinErr.systemError "Failed to open file"), [])
  else
    match env.fileSize with
    | none => (Except.error (WinErr.systemError "Failed to get file size"), [])
    | some fileSize =>
      if fileSize ≤ offset then
        (Except.error (WinErr.runtimeError "Offset is beyond the end of the file."), [])
      else
        match env.volumeInfo with
        | none =>
          (Except.error (WinErr.systemError "Failed to get volume info"), ["GetVolumeInfo"])
        | some volInfo =>
          let vcn : Int := Int.tdiv offset volInfo.ClusterSize
          match FindLcnFromVcn env.retrievalQuery vcn with
          | Except.error e =>
            (Except.error e, ["GetVolumeInfo", "FSCTL_GET_RETRIEVAL_POINTERS"])
          | Except.ok lcn =>
            (Except.ok (CalculateAndPrintLbaInfo offset volInfo lcn),
             ["GetVolumeInfo", "FSCTL_GET_RETRIEVAL_POINTERS"])

/-- The composition performed by `get_lba` to obtain the physical offset of a
byte within the volume: `vcn = offset / ClusterSize` (line 72), resolve the
LCN with `FindLcnFromVcn` (line 73), then take `filePhysicalOffset` of
`CalculateAndPrintLbaInfo` (line 178). -/
def winFilePhysicalOffset (rp : RetrievalPointersBuffer) (volInfo : VolumeInfo)
    (offset : Int) : Except WinErr Int :=
  match FindLcnFromVcn (some rp) (Int.tdiv offset volInfo.ClusterSize) with
  | Except.error e => Except.error e
  | Except.ok lcn => Except.ok (CalculateAndPrintLbaInfo offset volInfo lcn).filePhysicalOffset

/- ===================== Unix backend (offset2lba.cpp) ====================== -/

/-- One `struct fiemap_extent` as consumed by the code: all fields are
kernel `__u64` values, modelled as Nat (< 2^64 by the ABI). -/
structure FiemapExtent where
  fe_logical : Nat
  fe_physical : Nat
  fe_length : Nat
deriving DecidableEq, Repr

/-- The `struct fiemap` response: the kernel-reported mapped-extent count and
the extent array. -/
structure Fiemap where
  fm_mapped_extents : Nat
  fm_extents : List FiemapExtent
deriving DecidableEq, Repr

/-- `DEFAULT_SECTOR_SIZE` (offset2lba.cpp line 30). -/
def DEFAULT_SECTOR_SIZE : Nat := 512

/-- Outcome of the Unix calculation: either the sparse-hole report (line
129) or the resolved quantities printed at lines 144-147. -/
inductive UnixOutcome where
  | Unmapped
  | Resolved (physicalBytes fsLba : Nat) (partitionStartLba : Int) (absoluteLba : Nat)
deriving DecidableEq, Repr

/-- Line 134: `physical_block_address_bytes = extent->fe_physical +
(static_cast<unsigned long long>(offset) - extent->fe_logical)`, computed in
unsigned 64-bit arithmetic (wraparound modulo 2^64). -/
def physical_block_address_bytes (extent : FiemapExtent) (offset : Int) : Nat :=
  toU64 ((extent.fe_physical : Int) + ((toU64 offset : Int) - (extent.fe_logical : Int)))

/-- `calculate_and_print_lba` (offset2lba.cpp lines 125-148).  The partition
start (obtained from `get_partition_start_sector`, a signed `long long`) is a
parameter.  Returns `none` only when the code would read `fm_extents[0]` out
of bounds (`fm_mapped_extents ≠ 0` yet the extent array is empty), which the
kernel contract excludes. -/
def calculate_and_print_lba (fiemap_data : Fiemap) (offset : Int)
    (partition_start_lba : Int) : Option UnixOutcome :=
  if fiemap_data.fm_mapped_extents = 0 then
    some UnixOutcome.Unmapped
  else
    match fiemap_data.fm_extents.head? with
    | none => none
    | some extent =>
      let physicalBytes : Nat := physical_block_address_bytes extent offset
      let fs_lba : Nat := physicalBytes / DEFAULT_SECTOR_SIZE
      let absolute_lba : Nat := toU64 ((fs_lba : Int) + partition_start_lba)
      some (UnixOutcome.Resolved physicalBytes fs_lba partition_start_lba absolute_lba)

/-- One directory entry of `/sys/class/block/` as the scan reads it: the
entry name, the parsed `major:minor` content of `<name>/dev` (`none` if that
file cannot be opened), and the content of `<name>/start` (`none` if that
file cannot be opened). -/
structure BlockDirEntry where
  name : String
  dev : Option (Nat × Nat)
  start : Option Int
deriving DecidableEq, Repr

/-- The readdir loop of `get_partition_start_sector` (offset2lba.cpp lines
90-118): skip `.` and `..`; for an entry whose `dev` file opens and matches
the requested device id, read `start` (leaving 0 if it cannot be opened) and
break; otherwise continue.  Falls through to 0. -/
def partition_scan (dev_id : Nat × Nat) : List BlockDirEntry → Int
  | [] => 0
  | e :: rest =>
    if e.name = "." ∨ e.name = ".." then
      partition_scan dev_id rest
    else
      match e.dev with
      | some d =>
        if d = dev_id then
          match e.start with
          | some s => s
          | none => 0
        else
          partition_scan dev_id rest
      | none => partition_scan dev_id rest

/-- `get_partition_start_sector` (offset2lba.cpp lines 79-122).  The registry
is `none` when `opendir("/sys/class/block/")` fails.  The second component
collects the warning diagnostics written to stderr. -/
def get_partition_start_sector (registry : Option (List BlockDirEntry))
    (dev_id : Nat × Nat) : Int × List String :=
  match registry with
  | none =>
    (0, ["Warning: Could not open /sys/class/block to find partition start."])
  | some entries => (partition_scan dev_id entries, [])

/-- The OS environment seen by the Unix `get_lba`: the fiemap response for
this request (`none` when open/fstat/ioctl fails; the three distinct error
messages are collapsed), the block-device registry, and the `st_dev` of the
file as a `(major, minor)` pair. -/
structure UnixEnv where
  fiemapResult : Option Fiemap
  registry : Option (List BlockDirEntry)
  st_dev : Nat × Nat
deriving Repr

/-- `get_lba` on Unix (offset2lba.cpp lines 38-43): obtain the fiemap data
(throwing `std::system_error` on any OS failure) and hand it, together with
the partition start, to `calculate_and_print_lba`.  No check of the offset's
sign or of the file size is performed anywhere on this path. -/
def unix_get_lba (env : UnixEnv) (offset : Int) :
    Except String (Option UnixOutcome) :=
  match env.fiemapResult with
  | none => Except.error "system_error from open/fstat/ioctl"
  | some fiemap_data =>
    Except.ok (calculate_and_print_lba fiemap_data offset
      (get_partition_start_sector env.registry env.st_dev).1)

/-- Decimal-digit accumulator for the `std::stoll` model. -/
def parseDigits : List Char → Nat → Option Nat
  | [], acc => some acc
  | c :: cs, acc =>
    if c.isDigit then parseDigits cs (acc * 10 + (c.toNat - 48)) else none

/-- `std::stoll` as `main` uses it: an optional leading minus followed by
decimal digits (the numeric forms the CLI exercises); `none` models the
exception thrown on a non-numeric argument. -/
def stoll (s : String) : Option Int :=
  match s.toList with
  | [] => none
  | '-' :: c :: cs => (parseDigits (c :: cs) 0).map (fun n => -(n : Int))
  | c :: cs => (parseDigits (c :: cs) 0).map (fun n => (n : Int))

/-- `main` (offset2lba.cpp lines 150-172): with exactly two arguments after
the program name, parse the offset as a signed 64-bit integer (`std::stoll`)
and call `get_lba` with it unchecked; otherwise print usage and exit 1
(`none`). -/
def unix_main (env : UnixEnv) (argv : List String) :
    Option (Except String (Option UnixOutcome)) :=
  match argv with
  | [_prog, _filepath, offsetArg] =>
    match stoll offsetArg with
    | some offset => some (unix_get_lba env offset)
    | none => none
  | _ => none

/- ===================== Helper lemmas ====================================== -/

theorem toU64_eq_toNat (x : Int) (h0 : 0 ≤ x) (hlt : x < 2 ^ 64) :
    toU64 x = x.toNat := by
  unfold toU64
  rw [Int.emod_eq_of_lt h0 hlt]

theorem toU64_natCast (n : Nat) (h : n < 2 ^ 64) : toU64 (n : Int) = n := by
  rw [toU64_eq_toNat _ (Int.natCast_nonneg n) (by exact_mod_cast h)]
  exact Int.toNat_natCast n

theorem scanRuns_err_of_all_le (startingVcn vcn : Int) (l : List RetrievalRun)
    (h : ∀ r ∈ l, r.NextVcn ≤ vcn) :
    scanRuns startingVcn vcn l =
      Except.error (WinErr.runtimeError "Could not find the LCN for the given offset.") := by
  induction l with
  | nil => rfl
  | cons run rest ih =>
    have h1 : run.NextVcn ≤ vcn := h run (List.mem_cons_self run rest)
    rw [scanRuns, if_neg (not_lt.mpr h1)]
    exact ih fun r hr => h r (List.mem_cons_of_mem run hr)

theorem scanRuns_ok_mem (startingVcn vcn x : Int) (l : List RetrievalRun)
    (h : scanRuns startingVcn vcn l = Except.ok x) :
    ∃ r ∈ l, vcn < r.NextVcn := by
  induction l with
  | nil => exact absurd h (by simp [scanRuns])
  | cons run rest ih =>
    by_cases hlt : vcn < run.NextVcn
    · exact ⟨run, List.mem_cons_self run rest, hlt⟩
    · rw [scanRuns, if_neg hlt] at h
      obtain ⟨r, hr, hx⟩ := ih h
      exact ⟨r, List.mem_cons_of_mem run hr, hx⟩

theorem partition_scan_eq_zero (dev_id : Nat × Nat) (l : List BlockDirEntry)
    (h : ∀ e ∈ l, e.name = "." ∨ e.name = ".." ∨ e.dev ≠ some dev_id) :
    partition_scan dev_id l = 0 := by
  induction l with
  | nil => rfl
  | cons e rest ih =>
    have hrest : partition_scan dev_id rest = 0 :=
      ih fun x hx => h x (List.mem_cons_of_mem e hx)
    rcases h e (List.mem_cons_self e rest) with hdot | hdot | hdev
    · rw [partition_scan, if_pos (Or.inl hdot)]; exact hrest
    · rw [partition_scan, if_pos (Or.inr hdot)]; exact hrest
    · rw [partition_scan]
      by_cases hname : e.name = "." ∨ e.name = ".."
      · rw [if_pos hname]; exact hrest
      · rw [if_neg hname]
        match hd : e.dev with
        | none => exact hrest
        | some d =>
          have hne : d ≠ dev_id := fun hc => hdev (by rw [hd, hc])
          simp only [if_neg hne]
          exact hrest

theorem calculate_resolved_inv (fm : Fiemap) (offset psl : Int) (P F : Nat)
    (PS : Int) (A : Nat)
    (h : calculate_and_print_lba fm offset psl = some (UnixOutcome.Resolved P F PS A)) :
    F = P / DEFAULT_SECTOR_SIZE ∧ PS = psl ∧
    A = toU64 ((P / DEFAULT_SECTOR_SIZE : Nat) + psl) ∧
    ∃ e rest, fm.fm_extents = e :: rest ∧ P = physical_block_address_bytes e offset := by
  unfold calculate_and_print_lba at h
  by_cases h0 : fm.fm_mapped_extents = 0
  · rw [if_pos h0] at h
    exact absurd (Option.some.inj h) (by simp)
  · rw [if_neg h0] at h
    match hext : fm.fm_extents with
    | [] => rw [hext] at h; exact absurd h (by simp)
    | e :: rest =>
      rw [hext] at h
      simp only [List.head?_cons, Option.some.injEq, UnixOutcome.Resolved.injEq] at h
      obtain ⟨hP, hF, hPS, hA⟩ := h
      exact ⟨by rw [← hP, ← hF], hPS.symm, by rw [← hP, ← hA, hPS],
             e, rest, rfl, hP.symm⟩

/- ===================== Claim theorems ===================================== -/

/-- C1: the claim states that for every retrieval-pointer result containing a
run whose [startingVcn, nextVcn) interval contains the requested vcn, the
returned LCN equals run.lcn + (vcn − run.startingVcn), the selected run's
starting VCN being the buffer's StartingVcn for the first run and the
previous run's NextVcn for every later run.  The code instead always
subtracts the buffer's StartingVcn.  At the concrete input below (two runs,
StartingVcn = 0, first run ends at VCN 10 with Lcn 100, second ends at VCN 20
with Lcn 500, requested vcn = 15, so the second run is selected and its
starting VCN is 10) the code returns 515 while the claimed (and spec-stated)
formula gives 505. -/
theorem C1_lcn_formula_diverges_at_later_run :
    FindLcnFromVcn (some ⟨2, 0, [⟨10, 100⟩, ⟨20, 500⟩]⟩) 15 = Except.ok 515 ∧
    spec_scanRuns 0 15 [⟨10, 100⟩, ⟨20, 500⟩] = Except.ok 505 ∧
    Except.ok 515 ≠ (Except.ok 505 : Except WinErr Int) := by
  refine ⟨rfl, rfl, by simp⟩

/-- C2: with allocationUnitSize 4096, sectorSize 512, partition start
2048 sectors (= 1048576 bytes), lcn = 1000 and byteOffset = 100, the
Windows-unit calculation yields offsetInCluster = 100, physicalOffsetInVolume
= 4096100, diskAbsoluteOffset = 5144676 and absoluteLBA = 10048. -/
theorem C2_end_to_end_windows_units :
    CalculateAndPrintLbaInfo 100 ⟨4096, 512, 2048 * 512⟩ 1000 =
      ⟨100, 4096100, 5144676, 10048⟩ := by decide

/-- C6: on the Windows backend, whenever the opened file reports a size and
the requested offset is at or beyond it, `get_lba` fails with the
end-of-file runtime error and issues no extent or volume query (the query
trace is empty), whatever the volume-info and retrieval-pointer environment
would have answered; no resolution result is produced. -/
theorem C6_range_error_before_queries (env : WinEnv) (offset fileSize : Int)
    (hopen : env.fileOpens = true) (hsize : env.fileSize = some fileSize)
    (hge : fileSize ≤ offset) :
    win_get_lba env offset =
      (Except.error (WinErr.runtimeError "Offset is beyond the end of the file."), []) := by
  unfold win_get_lba
  rw [hopen, hsize]
  simp [hge]

theorem C6_witness :
    win_get_lba ⟨true, some 10, none, none⟩ 10 =
      (Except.error (WinErr.runtimeError "Offset is beyond the end of the file."), []) :=
  C6_range_error_before_queries ⟨true, some 10, none, none⟩ 10 10 rfl rfl (le_refl 10)

/-- C7: on the Unix backend, when the extent-map query reports zero mapped
extents, the outcome is the distinct Unmapped report: no physical address is
computed and no error is raised, whatever the offset and partition start. -/
theorem C7_zero_extents_unmapped (fm : Fiemap) (offset psl : Int)
    (h : fm.fm_mapped_extents = 0) :
    calculate_and_print_lba fm offset psl = some UnixOutcome.Unmapped ∧
    ∀ P F PS A, calculate_and_print_lba fm offset psl ≠
      some (UnixOutcome.Resolved P F PS A) := by
  have he : calculate_and_print_lba fm offset psl = some UnixOutcome.Unmapped := by
    unfold calculate_and_print_lba
    rw [if_pos h]
  exact ⟨he, fun P F PS A hc => by rw [he] at hc; exact absurd (Option.some.inj hc) (by simp)⟩

theorem C7_witness :
    calculate_and_print_lba ⟨0, []⟩ 5 0 = some UnixOutcome.Unmapped ∧
    ∀ P F PS A, calculate_and_print_lba ⟨0, []⟩ 5 0 ≠
      some (UnixOutcome.Resolved P F PS A) :=
  C7_zero_extents_unmapped ⟨0, []⟩ 5 0 rfl

/-- C9: in the Windows Extent Resolver, when the retrieval-pointer query
succeeds with at least one run but no run's NextVcn exceeds the requested
vcn, FindLcnFromVcn raises the "Could not find the LCN for the given offset."
runtime error instead of returning an LCN; and it returns a value only when
some run with vcn < NextVcn exists among the runs it scans. -/
theorem C9_find_lcn_exhausts_runs (rp : RetrievalPointersBuffer) (vcn : Int)
    (hcount : rp.ExtentCount ≠ 0) :
    ((∀ r ∈ rp.Extents.take rp.ExtentCount, r.NextVcn ≤ vcn) →
      FindLcnFromVcn (some rp) vcn =
        Except.error (WinErr.runtimeError "Could not find the LCN for the given offset.")) ∧
    (∀ x, FindLcnFromVcn (some rp) vcn = Except.ok x →
      ∃ r ∈ rp.Extents.take rp.ExtentCount, vcn < r.NextVcn) := by
  constructor
  · intro hall
    simp only [FindLcnFromVcn]
    rw [if_neg hcount]
    exact scanRuns_err_of_all_le _ _ _ hall
  · intro x hx
    simp only [FindLcnFromVcn] at hx
    rw [if_neg hcount] at hx
    exact scanRuns_ok_mem _ _ _ _ hx

theorem C9_witness :
    FindLcnFromVcn (some ⟨1, 0, [⟨10, 100⟩]⟩) 15 =
      Except.error (WinErr.runtimeError "Could not find the LCN for the given offset.") :=
  (C9_find_lcn_exhausts_runs ⟨1, 0, [⟨10, 100⟩]⟩ 15 (by decide)).1 (by decide)

/-- C8 as stated is false: when the registry directory opens but no entry
matches the requested device id, the scan silently returns 0 with no
warning-level diagnostic.  Concrete input: a registry holding a single entry
for device 8:1 when device 8:2 is requested — the result is 0 and the list
of emitted warnings is empty. -/
theorem C8_no_warning_on_unmatched_device :
    get_partition_start_sector (some [⟨"sda1", some (8, 1), some 2048⟩]) (8, 2) =
      (0, []) := by
  decide

/-- C8 amended: the Unix Partition Locator returns 0 and never fails the
request whenever no block device in the registry matches the requested
(major, minor) id; the warning-level diagnostic is emitted exactly when the
registry directory itself cannot be opened, and the no-match scan over an
opened directory returns 0 silently. -/
theorem C8_no_match_returns_zero (registry : Option (List BlockDirEntry))
    (dev_id : Nat × Nat)
    (hnm : ∀ entries, registry = some entries →
      ∀ e ∈ entries, e.name = "." ∨ e.name = ".." ∨ e.dev ≠ some dev_id) :
    (get_partition_start_sector registry dev_id).1 = 0 ∧
    ((get_partition_start_sector registry dev_id).2 ≠ [] ↔ registry = none) := by
  match hreg : registry with
  | none => exact ⟨rfl, by simp [get_partition_start_sector]⟩
  | some entries =>
    constructor
    · exact partition_scan_eq_zero dev_id entries (hnm entries rfl)
    · simp [get_partition_start_sector]

theorem C8_amended_witness :
    (get_partition_start_sector none (8, 1)).1 = 0 ∧
    ((get_partition_start_sector none (8, 1)).2 ≠ [] ↔
      (none : Option (List BlockDirEntry)) = none) :=
  C8_no_match_returns_zero none (8, 1) (fun _ h => nomatch h)

/-- C4: the floor-division invariant
`absoluteLBA * sectorSize ≤ diskAbsoluteOffset < (absoluteLBA + 1) * sectorSize`
holds on both backends: for the Windows calculation whenever its
diskAbsoluteOffset is nonnegative and the sector size positive, and for the
Unix calculation (sector size fixed at 512) between the physical byte
address and the filesystem-relative LBA of any Resolved outcome. -/
theorem C4_floor_division_invariant
    (offset : Int) (volInfo : VolumeInfo) (lcn : Int)
    (fm : Fiemap) (uoffset psl : Int) (P F : Nat) (PS : Int) (A : Nat)
    (hsec : 0 < volInfo.BytesPerSector)
    (hd : 0 ≤ (CalculateAndPrintLbaInfo offset volInfo lcn).diskAbsoluteOffset)
    (hres : calculate_and_print_lba fm uoffset psl = some (UnixOutcome.Resolved P F PS A)) :
    ((CalculateAndPrintLbaInfo offset volInfo lcn).absoluteLba * volInfo.BytesPerSector ≤
        (CalculateAndPrintLbaInfo offset volInfo lcn).diskAbsoluteOffset ∧
      (CalculateAndPrintLbaInfo offset volInfo lcn).diskAbsoluteOffset <
        ((CalculateAndPrintLbaInfo offset volInfo lcn).absoluteLba + 1) * volInfo.BytesPerSector) ∧
    (F * DEFAULT_SECTOR_SIZE ≤ P ∧ P < (F + 1) * DEFAULT_SECTOR_SIZE) := by
  constructor
  · have hsecZ : (0 : Int) < (volInfo.BytesPerSector : Int) := by exact_mod_cast hsec
    have habs : (CalculateAndPrintLbaInfo offset volInfo lcn).absoluteLba =
        (CalculateAndPrintLbaInfo offset volInfo lcn).diskAbsoluteOffset /
          (volInfo.BytesPerSector : Int) := by
      show Int.tdiv _ _ = _
      exact Int.tdiv_eq_ediv hd (le_of_lt hsecZ)
    rw [habs]
    exact ⟨Int.ediv_mul_le _ (ne_of_gt hsecZ),
           Int.lt_ediv_add_one_mul_self _ hsecZ⟩
  · obtain ⟨hF, -, -, -⟩ := calculate_resolved_inv fm uoffset psl P F PS A hres
    rw [hF]
    simp only [DEFAULT_SECTOR_SIZE]
    omega

theorem C4_witness :
    (((CalculateAndPrintLbaInfo 100 ⟨4096, 512, 2048 * 512⟩ 1000).absoluteLba * 512 ≤
        (CalculateAndPrintLbaInfo 100 ⟨4096, 512, 2048 * 512⟩ 1000).diskAbsoluteOffset ∧
      (CalculateAndPrintLbaInfo 100 ⟨4096, 512, 2048 * 512⟩ 1000).diskAbsoluteOffset <
        ((CalculateAndPrintLbaInfo 100 ⟨4096, 512, 2048 * 512⟩ 1000).absoluteLba + 1) * 512) ∧
    (8 * DEFAULT_SECTOR_SIZE ≤ 4096 ∧ 4096 < (8 + 1) * DEFAULT_SECTOR_SIZE)) :=
  C4_floor_division_invariant 100 ⟨4096, 512, 2048 * 512⟩ 1000
    ⟨1, [⟨0, 4096, 1⟩]⟩ 0 0 4096 8 0 8
    (by decide) (by decide) (by decide)

theorem physical_eq_of_bounds (e : FiemapExtent) (offset : Int)
    (hlog : (e.fe_logical : Int) ≤ offset) (hoff : offset < 2 ^ 64)
    (hphys : e.fe_physical + (offset.toNat - e.fe_logical) < 2 ^ 64) :
    physical_block_address_bytes e offset =
      e.fe_physical + (offset.toNat - e.fe_logical) := by
  have h0 : 0 ≤ offset := le_trans (Int.natCast_nonneg _) hlog
  unfold physical_block_address_bytes
  rw [toU64_eq_toNat offset h0 hoff]
  have harg : (e.fe_physical : Int) + ((offset.toNat : Int) - e.fe_logical)
      = ((e.fe_physical + (offset.toNat - e.fe_logical) : Nat) : Int) := by omega
  rw [harg, toU64_natCast _ hphys]

/-- C3: on the Unix backend, when at least one extent is mapped (and the
arithmetic stays below 2^64, so the unsigned computation does not wrap), the
resolved physical byte address is extent.physicalStart + (byteOffset −
extent.logicalStart) computed from the first returned extent only, the
filesystem-relative LBA is that address floor-divided by the sector size
(512), and the absolute LBA is defined and equals the filesystem-relative
LBA plus the partition start; the calculation never fails (a Resolved
outcome is produced). -/
theorem C3_unix_first_extent_resolution (fm : Fiemap) (e : FiemapExtent)
    (rest : List FiemapExtent) (offset ps : Int)
    (hcount : fm.fm_mapped_extents ≠ 0)
    (hext : fm.fm_extents = e :: rest)
    (hlog : (e.fe_logical : Int) ≤ offset)
    (hoff : offset < 2 ^ 64)
    (hphys : e.fe_physical + (offset.toNat - e.fe_logical) < 2 ^ 64)
    (hps : 0 ≤ ps)
    (habs : (e.fe_physical + (offset.toNat - e.fe_logical)) / DEFAULT_SECTOR_SIZE +
      ps.toNat < 2 ^ 64) :
    calculate_and_print_lba fm offset ps =
      some (UnixOutcome.Resolved
        (e.fe_physical + (offset.toNat - e.fe_logical))
        ((e.fe_physical + (offset.toNat - e.fe_logical)) / DEFAULT_SECTOR_SIZE)
        ps
        ((e.fe_physical + (offset.toNat - e.fe_logical)) / DEFAULT_SECTOR_SIZE +
          ps.toNat)) ∧
    ((e.fe_physical + (offset.toNat - e.fe_logical) : Nat) : Int) =
      (e.fe_physical : Int) + (offset - (e.fe_logical : Int)) := by
  have h0 : 0 ≤ offset := le_trans (Int.natCast_nonneg _) hlog
  have hP := physical_eq_of_bounds e offset hlog hoff hphys
  constructor
  · unfold calculate_and_print_lba
    rw [if_neg hcount, hext]
    simp only [List.head?_cons]
    rw [hP]
    have hA : toU64 (((e.fe_physical + (offset.toNat - e.fe_logical)) /
        DEFAULT_SECTOR_SIZE : Nat) + ps) =
        (e.fe_physical + (offset.toNat - e.fe_logical)) / DEFAULT_SECTOR_SIZE +
          ps.toNat := by
      have h1 : (((e.fe_physical + (offset.toNat - e.fe_logical)) /
          DEFAULT_SECTOR_SIZE : Nat) : Int) + ps =
          (((e.fe_physical + (offset.toNat - e.fe_logical)) / DEFAULT_SECTOR_SIZE +
            ps.toNat : Nat) : Int) := by omega
      rw [h1, toU64_natCast _ habs]
    rw [hA]
  · omega

theorem C3_witness :
    calculate_and_print_lba ⟨1, [⟨0, 4096, 1⟩]⟩ 0 0 =
      some (UnixOutcome.Resolved 4096 8 0 8) := by
  have h := (C3_unix_first_extent_resolution ⟨1, [⟨0, 4096, 1⟩]⟩ ⟨0, 4096, 1⟩ [] 0 0
    (by decide) rfl (by decide) (by decide) (by decide) (by decide) (by decide)).1
  simpa [DEFAULT_SECTOR_SIZE] using h

theorem find_lcn_single_run (S N L vcn : Int) (hv : vcn < N) :
    FindLcnFromVcn (some ⟨1, S, [⟨N, L⟩]⟩) vcn = Except.ok (L + (vcn - S)) := by
  simp only [FindLcnFromVcn]
  rw [if_neg (by decide : ¬(1 = 0))]
  simp only [List.take_succ_cons, List.take_nil]
  rw [scanRuns, if_pos hv]

theorem winFilePhysical_single_run (S N L : Int) (volInfo : VolumeInfo) (v : Int)
    (hC : 0 < volInfo.ClusterSize) (hv0 : 0 ≤ v)
    (hvN : Int.tdiv v (volInfo.ClusterSize : Int) < N) :
    winFilePhysicalOffset ⟨1, S, [⟨N, L⟩]⟩ volInfo v =
      Except.ok (L * (volInfo.ClusterSize : Int) - S * (volInfo.ClusterSize : Int) + v) := by
  have hCZ : (0 : Int) ≤ (volInfo.ClusterSize : Int) := Int.natCast_nonneg _
  unfold winFilePhysicalOffset
  rw [find_lcn_single_run S N L _ hvN]
  simp only [CalculateAndPrintLbaInfo]
  rw [Int.tdiv_eq_ediv hv0 hCZ, Int.tmod_eq_emod hv0 hCZ]
  congr 1
  linear_combination Int.ediv_add_emod v (volInfo.ClusterSize : Int)

/-- C5: for any two offsets o and o+1 both lying within the same single,
unfragmented extent, the resolved physical byte address of o+1 is one more
than that of o — on the Unix backend (the fiemap computation, under no-wrap
bounds) and on the Windows backend (the vcn/lcn/cluster composition over a
one-run retrieval buffer). -/
theorem C5_successor_offset
    (e : FiemapExtent) (o : Int)
    (h1 : (e.fe_logical : Int) ≤ o) (h2 : o + 1 < 2 ^ 64)
    (h3 : e.fe_physical + ((o + 1).toNat - e.fe_logical) < 2 ^ 64)
    (volInfo : VolumeInfo) (S N L w : Int)
    (hC : 0 < volInfo.ClusterSize) (hw : 0 ≤ w)
    (hN : Int.tdiv (w + 1) (volInfo.ClusterSize : Int) < N) :
    physical_block_address_bytes e (o + 1) = physical_block_address_bytes e o + 1 ∧
    winFilePhysicalOffset ⟨1, S, [⟨N, L⟩]⟩ volInfo (w + 1) =
      Except.map (fun x => x + 1) (winFilePhysicalOffset ⟨1, S, [⟨N, L⟩]⟩ volInfo w) ∧
    (winFilePhysicalOffset ⟨1, S, [⟨N, L⟩]⟩ volInfo w).isOk = true := by
  have h0 : 0 ≤ o := le_trans (Int.natCast_nonneg _) h1
  refine ⟨?_, ?_, ?_⟩
  · have hP1 := physical_eq_of_bounds e (o + 1) (by omega) h2
      (by exact h3)
    have hP0 := physical_eq_of_bounds e o h1 (by omega) (by omega)
    rw [hP1, hP0]
    omega
  · have hCZ : (0 : Int) ≤ (volInfo.ClusterSize : Int) := Int.natCast_nonneg _
    have hCpos : (0 : Int) < (volInfo.ClusterSize : Int) := by exact_mod_cast hC
    have hwN : Int.tdiv w (volInfo.ClusterSize : Int) < N := by
      rw [Int.tdiv_eq_ediv hw hCZ]
      rw [Int.tdiv_eq_ediv (by omega) hCZ] at hN
      exact lt_of_le_of_lt (Int.ediv_le_ediv hCpos (by omega)) hN
    rw [winFilePhysical_single_run S N L volInfo (w + 1) hC (by omega) hN,
        winFilePhysical_single_run S N L volInfo w hC hw hwN]
    simp only [Except.map]
    congr 1
    ring
  · have hCZ : (0 : Int) ≤ (volInfo.ClusterSize : Int) := Int.natCast_nonneg _
    have hCpos : (0 : Int) < (volInfo.ClusterSize : Int) := by exact_mod_cast hC
    have hwN : Int.tdiv w (volInfo.ClusterSize : Int) < N := by
      rw [Int.tdiv_eq_ediv hw hCZ]
      rw [Int.tdiv_eq_ediv (by omega) hCZ] at hN
      exact lt_of_le_of_lt (Int.ediv_le_ediv hCpos (by omega)) hN
    rw [winFilePhysical_single_run S N L volInfo w hC hw hwN]
    rfl

theorem C5_witness :
    (physical_block_address_bytes ⟨0, 4096, 8192⟩ (5 + 1) =
      physical_block_address_bytes ⟨0, 4096, 8192⟩ 5 + 1 ∧
    winFilePhysicalOffset ⟨1, 0, [⟨10, 100⟩]⟩ ⟨4096, 512, 0⟩ (5 + 1) =
      Except.map (fun x => x + 1)
        (winFilePhysicalOffset ⟨1, 0, [⟨10, 100⟩]⟩ ⟨4096, 512, 0⟩ 5) ∧
    (winFilePhysicalOffset ⟨1, 0, [⟨10, 100⟩]⟩ ⟨4096, 512, 0⟩ 5).isOk = true) :=
  C5_successor_offset ⟨0, 4096, 8192⟩ 5 (by decide) (by decide) (by decide)
    ⟨4096, 512, 0⟩ 0 10 100 5 (by decide) (by decide) (by decide)

/-- C10: the Unix entry point accepts a negative byte offset without
rejection: the offset parsed from the command line (a signed 64-bit value)
is handed to `get_lba` unchecked, the extent-map result is consulted, and
when an extent is returned the physical address is computed from the
offset's unsigned 64-bit conversion, which for a negative in-range offset
wraps modulo 2^64 (its value is offset + 2^64). -/
theorem C10_negative_offset_accepted
    (env : UnixEnv) (prog fpath offArg : String) (offset : Int)
    (fm : Fiemap) (e : FiemapExtent) (rest : List FiemapExtent)
    (hparse : stoll offArg = some offset)
    (hneg : offset < 0) (hrange : -(2 ^ 64) ≤ offset)
    (hfm : env.fiemapResult = some fm)
    (hcount : fm.fm_mapped_extents ≠ 0)
    (hext : fm.fm_extents = e :: rest) :
    unix_main env [prog, fpath, offArg] = some (unix_get_lba env offset) ∧
    unix_get_lba env offset = Except.ok (calculate_and_print_lba fm offset
      (get_partition_start_sector env.registry env.st_dev).1) ∧
    ((toU64 offset : Int) = offset + 2 ^ 64) ∧
    calculate_and_print_lba fm offset
        (get_partition_start_sector env.registry env.st_dev).1 =
      some (UnixOutcome.Resolved
        (physical_block_address_bytes e offset)
        (physical_block_address_bytes e offset / DEFAULT_SECTOR_SIZE)
        (get_partition_start_sector env.registry env.st_dev).1
        (toU64 ((physical_block_address_bytes e offset / DEFAULT_SECTOR_SIZE : Nat) +
          (get_partition_start_sector env.registry env.st_dev).1))) := by
  refine ⟨?_, ?_, ?_, ?_⟩
  · show (match stoll offArg with
      | some o => some (unix_get_lba env o)
      | none => none) = some (unix_get_lba env offset)
    rw [hparse]
  · show (match env.fiemapResult with
      | none => Except.error "system_error from open/fstat/ioctl"
      | some fiemap_data =>
        Except.ok (calculate_and_print_lba fiemap_data offset
          (get_partition_start_sector env.registry env.st_dev).1)) = _
    rw [hfm]
  · unfold toU64
    have h2 : (2 : Int) ^ 64 = 18446744073709551616 := by norm_num
    rw [h2]
    rw [h2] at hrange
    omega
  · unfold calculate_and_print_lba
    rw [if_neg hcount, hext]
    rfl

theorem C10_witness :
    (unix_main ⟨some ⟨1, [⟨0, 4096, 1⟩]⟩, some [], (8, 1)⟩ ["prog", "file", "-5"] =
      some (unix_get_lba ⟨some ⟨1, [⟨0, 4096, 1⟩]⟩, some [], (8, 1)⟩ (-5)) ∧
    unix_get_lba ⟨some ⟨1, [⟨0, 4096, 1⟩]⟩, some [], (8, 1)⟩ (-5) =
      Except.ok (calculate_and_print_lba ⟨1, [⟨0, 4096, 1⟩]⟩ (-5)
        (get_partition_start_sector (some []) (8, 1)).1) ∧
    ((toU64 (-5) : Int) = -5 + 2 ^ 64) ∧
    calculate_and_print_lba ⟨1, [⟨0, 4096, 1⟩]⟩ (-5)
        (get_partition_start_sector (some []) (8, 1)).1 =
      some (UnixOutcome.Resolved
        (physical_block_address_bytes ⟨0, 4096, 1⟩ (-5))
        (physical_block_address_bytes ⟨0, 4096, 1⟩ (-5) / DEFAULT_SECTOR_SIZE)
        (get_partition_start_sector (some []) (8, 1)).1
        (toU64 ((physical_block_address_bytes ⟨0, 4096, 1⟩ (-5) /
            DEFAULT_SECTOR_SIZE : Nat) +
          (get_partition_start_sector (some []) (8, 1)).1)))) :=
  C10_negative_offset_accepted ⟨some ⟨1, [⟨0, 4096, 1⟩]⟩, some [], (8, 1)⟩
    "prog" "file" "-5" (-5) ⟨1, [⟨0, 4096, 1⟩]⟩ ⟨0, 4096, 1⟩ []
    (by decide) (by decide) (by decide) rfl (by decide) rfl
